/-
  Verification of the options-data pipeline in `dataPyFile.py`
  (repository JRCon1/options-data-automation).

  The quote plumbing (filters, calendar arithmetic) is embedded over ℚ/ℤ,
  exactly as the source computes it; the Black–Scholes formulas of
  `calculate_greeks` are embedded over ℝ, with `scipy.stats.norm.cdf`/`pdf`
  rendered as the standard normal CDF/PDF.  Timestamps are integer seconds
  since an (arbitrary) epoch midnight; a calendar date is its day number,
  and a date rendered as a timestamp is `day * 86400` (midnight).
-/
import Mathlib

namespace OptionsData

/-- Python's builtin `round` / numpy `.round` use banker's rounding
(round half to even).  `bankRound q` is that rounding of a rational to an
integer: nearest integer, ties to the even one. -/
def bankRound (q : ℚ) : ℤ :=
  if q - ⌊q⌋ < 1/2 then ⌊q⌋
  else if 1/2 < q - ⌊q⌋ then ⌊q⌋ + 1
  else if Even ⌊q⌋ then ⌊q⌋ else ⌊q⌋ + 1

/-- Banker's rounding on the reals, used for numpy's `.round(4)` in the
Greeks engine. -/
noncomputable def bankRoundR (x : ℝ) : ℤ :=
  if x - ⌊x⌋ < 1/2 then ⌊x⌋
  else if 1/2 < x - ⌊x⌋ then ⌊x⌋ + 1
  else if Even ⌊x⌋ then ⌊x⌋ else ⌊x⌋ + 1

/-- `round(spot, 2)` of the source (line 60). -/
def roundTo2 (q : ℚ) : ℚ := (bankRound (q * 100) : ℚ) / 100

/-- numpy `.round(4)` applied to every Greek (lines 120-146). -/
noncomputable def round4 (x : ℝ) : ℝ := (bankRoundR (x * 10000) : ℝ) / 10000

/-- `scipy.stats.norm.cdf`: the standard normal cumulative distribution
function, i.e. the CDF of the Gaussian measure with mean 0 and variance 1. -/
noncomputable def normCdf (x : ℝ) : ℝ :=
  ProbabilityTheory.cdf (ProbabilityTheory.gaussianReal 0 1) x

/-- `scipy.stats.norm.pdf`: the standard normal density. -/
noncomputable def normPdf (x : ℝ) : ℝ :=
  (Real.sqrt (2 * Real.pi))⁻¹ * Real.exp (-(x ^ 2) / 2)

/-- One exchange-quoted contract as delivered by the provider
(`chain.calls` / `chain.puts` columns kept at line 53). -/
structure RawQuote where
  contractSymbol : String
  strike : ℚ
  lastPrice : ℚ
  bid : ℚ
  ask : ℚ
  impliedVolatility : ℚ
deriving DecidableEq, Repr

/-- One expiry's option chain (`tk.option_chain(exp_str)`); `expiry` is the
day number of the expiry date (the source's `pd.to_datetime(exp_str)`, a
midnight timestamp). -/
structure Chain where
  expiry : ℤ
  calls : List RawQuote
  puts : List RawQuote
deriving DecidableEq, Repr

/-- What the snapshot provider (`yf.Ticker`) delivers: the spot price
(`tk.history(period="1d")["Close"].iloc[-1]`) and the chains for every
available expiry (`tk.options` / `tk.option_chain`). -/
structure Snapshot where
  spot : ℚ
  chains : List Chain
deriving DecidableEq, Repr

/-- A row of the normalized table built in `get_options` (lines 51-69):
the kept quote columns plus symbol, expiry, download timestamp, rounded
underlying price and days-to-expiry. `downloaded_at` is in seconds. -/
structure NormalizedRow where
  contractSymbol : String
  strike : ℚ
  lastPrice : ℚ
  bid : ℚ
  ask : ℚ
  impliedVolatility : ℚ
  symbol : String
  expiry : ℤ
  downloaded_at : ℤ
  underlying_price : ℚ
  dte : ℤ
deriving DecidableEq, Repr

/-- A row of the final table returned by `calculate_greeks`: the normalized
row, the extracted `time` column (seconds of day of `downloaded_at`,
rendering the source's `strftime("%H:%M:%S")`), and the four Greeks.  The
scratch columns `t`, `d1`, `d2` are dropped at line 149 and are not part of
this schema. -/
structure GreeksRow where
  row : NormalizedRow
  time : ℤ
  delta : ℝ
  theta : ℝ
  gamma : ℝ
  vega : ℝ

/-- The fixed risk-free rate of `calculate_greeks` (line 106). -/
noncomputable def rate : ℝ := 0.045

/-- `t = dte / 365.0` (line 103). -/
noncomputable def tOf (r : NormalizedRow) : ℝ := (r.dte : ℝ) / 365

/-- `d1` (lines 109-112), computed from the row's own columns. -/
noncomputable def d1Of (r : NormalizedRow) : ℝ :=
  (Real.log ((r.underlying_price : ℝ) / (r.strike : ℝ)) +
      (rate + (r.impliedVolatility : ℝ) ^ 2 / 2) * tOf r) /
    ((r.impliedVolatility : ℝ) * Real.sqrt (tOf r))

/-- `d2 = d1 - σ·sqrt(t)` (line 115). -/
noncomputable def d2Of (r : NormalizedRow) : ℝ :=
  d1Of r - (r.impliedVolatility : ℝ) * Real.sqrt (tOf r)

/-- The delta column (lines 118-130): `N(d1)` when `opt_type == "c"`,
`N(d1) - 1` otherwise, rounded to 4 decimals. -/
noncomputable def deltaOf (optType : String) (r : NormalizedRow) : ℝ :=
  if optType = "c" then round4 (normCdf (d1Of r))
  else round4 (normCdf (d1Of r) - 1)

/-- The theta column (lines 122-136), per calendar day. -/
noncomputable def thetaOf (optType : String) (r : NormalizedRow) : ℝ :=
  if optType = "c" then
    round4 ((-((r.underlying_price : ℝ) * (r.impliedVolatility : ℝ) *
          normPdf (d1Of r)) / (2 * Real.sqrt (tOf r)) -
        rate * (r.strike : ℝ) * Real.exp (-rate * tOf r) * normCdf (d2Of r)) / 365)
  else
    round4 ((-((r.underlying_price : ℝ) * (r.impliedVolatility : ℝ) *
          normPdf (d1Of r)) / (2 * Real.sqrt (tOf r)) +
        rate * (r.strike : ℝ) * Real.exp (-rate * tOf r) * normCdf (-d2Of r)) / 365)

/-- The gamma column (lines 139-141), identical for calls and puts. -/
noncomputable def gammaOf (r : NormalizedRow) : ℝ :=
  round4 (normPdf (d1Of r) /
    ((r.underlying_price : ℝ) * (r.impliedVolatility : ℝ) * Real.sqrt (tOf r)))

/-- The vega column (lines 144-146), identical for calls and puts. -/
noncomputable def vegaOf (r : NormalizedRow) : ℝ :=
  round4 ((r.underlying_price : ℝ) * Real.sqrt (tOf r) * normPdf (d1Of r) / 100)

/-- The full Greeks row for one input row of `calculate_greeks`. -/
noncomputable def greeksOf (optType : String) (r : NormalizedRow) : GreeksRow :=
  { row := r
    time := r.downloaded_at % 86400
    delta := deltaOf optType r
    theta := thetaOf optType r
    gamma := gammaOf r
    vega := vegaOf r }

/-- The implied-volatility floor of line 94 (`0.000010`, the double 1e-5). -/
def ivFloor : ℚ := 1/100000

/-- `calculate_greeks` on its happy path (lines 92-151): filter out rows
with `impliedVolatility <= 1e-5`, return empty if nothing is left,
otherwise add the time column and the four Greeks to every row. -/
noncomputable def calculate_greeks (data : List NormalizedRow) (optType : String) :
    List GreeksRow :=
  let data := data.filter (fun r => ivFloor < r.impliedVolatility)
  if data = [] then [] else data.map (greeksOf optType)

/-- `(out["expiry"] - now).dt.days + 1` (line 68): the floor of the
difference between expiry midnight and the wall-clock instant `now`
(seconds), in whole days, plus one. -/
def dteOf (expiry : ℤ) (now : ℤ) : ℤ := Int.fdiv (expiry * 86400 - now) 86400 + 1

/-- The strike-band membership test of lines 39 and 51-54:
`df["strike"].between(lo, hi)` with `lo, hi = round(spot*(1-bound), 0),
round(spot*(1+bound), 0)` — inclusive on both ends. -/
def inBand (spot bound : ℚ) (strike : ℚ) : Bool :=
  decide ((bankRound (spot * (1 - bound)) : ℚ) ≤ strike ∧
    strike ≤ (bankRound (spot * (1 + bound)) : ℚ))

/-- The expiry-cutoff test of lines 40 and 47: the chain is kept unless
`exp_date > cutoff_date`, where `cutoff_date = utcnow + max_dte days` and
`nowCut` is the `utcnow` clock read in seconds.  Expiry midnight is
`expiry * 86400` seconds. -/
def keptByCutoff (maxDte : ℤ) (nowCut : ℤ) (expiry : ℤ) : Bool :=
  !decide (expiry * 86400 > nowCut + maxDte * 86400)

/-- The chain selection of line 50: `chain.calls if opt_type == "c" else
chain.puts`. -/
def pickChain (optType : String) (c : Chain) : List RawQuote :=
  if optType = "c" then c.calls else c.puts

/-- Assembly of one normalized row (lines 51-60): kept quote columns plus
symbol, expiry, timestamp, rounded spot; `dte` is attached later (line 68). -/
def normRow (symbol : String) (downloadedAt : ℤ) (spot : ℚ) (expiry : ℤ)
    (dte : ℤ) (q : RawQuote) : NormalizedRow :=
  { contractSymbol := q.contractSymbol
    strike := q.strike
    lastPrice := q.lastPrice
    bid := q.bid
    ask := q.ask
    impliedVolatility := q.impliedVolatility
    symbol := symbol
    expiry := expiry
    downloaded_at := downloadedAt
    underlying_price := roundTo2 spot
    dte := dte }

/-- Lines 44-66 of `get_options`: the loop over expiries — skip chains past
the cutoff, keep quotes inside the strike band, assemble normalized rows
(including the `dte` column attached at line 68 from the second clock read
`nowDte`).  `nowCut` is the `datetime.utcnow()` read of line 40 and
`nowDte` the `pd.Timestamp.now()` read of line 67, both in seconds. -/
def assembledRows (snap : Snapshot) (symbol : String) (optType : String)
    (bound : ℚ) (maxDte : ℤ) (nowCut nowDte downloadedAt : ℤ) :
    List NormalizedRow :=
  (snap.chains.filter (fun c => keptByCutoff maxDte nowCut c.expiry)).flatMap
    (fun c => ((pickChain optType c).filter
        (fun q => inBand snap.spot bound q.strike)).map
      (fun q => normRow symbol downloadedAt snap.spot c.expiry
        (dteOf c.expiry nowDte) q))

/-- Line 69: drop every row with non-positive `dte`. -/
def normalizedRows (snap : Snapshot) (symbol : String) (optType : String)
    (bound : ℚ) (maxDte : ℤ) (nowCut nowDte downloadedAt : ℤ) :
    List NormalizedRow :=
  (assembledRows snap symbol optType bound maxDte nowCut nowDte downloadedAt).filter
    (fun r => 0 < r.dte)

/-- The core of `get_options` (lines 39-75) once the snapshot is in hand:
normalize, and if any row is left run the Greeks engine on the result
(lines 72-75). -/
noncomputable def get_optionsCore (snap : Snapshot) (symbol : String)
    (optType : String) (bound : ℚ) (maxDte : ℤ) (nowCut nowDte downloadedAt : ℤ) :
    List GreeksRow :=
  let out := normalizedRows snap symbol optType bound maxDte nowCut nowDte downloadedAt
  if out = [] then [] else calculate_greeks out optType

/-- `get_options` with its `try/except` (lines 35-79): any retrieval
failure degrades to the empty table. -/
noncomputable def get_options (fetch : Except String Snapshot) (symbol : String)
    (optType : String) (bound : ℚ) (maxDte : ℤ) (nowCut nowDte downloadedAt : ℤ) :
    List GreeksRow :=
  match fetch with
  | .error _ => []
  | .ok snap => get_optionsCore snap symbol optType bound maxDte nowCut nowDte downloadedAt

/-- One (ticker, opt_type) batch of `main`'s double loop: the fetch outcome
together with the fixed parameters of that batch. -/
structure Batch where
  fetch : Except String Snapshot
  symbol : String
  optType : String
deriving Repr

/-- The collection loop of `main` (lines 181-197): every batch is processed
by `get_options` independently; a failing batch contributes an empty table
and the loop continues. -/
noncomputable def runAll (batches : List Batch) (bound : ℚ) (maxDte : ℤ)
    (nowCut nowDte downloadedAt : ℤ) : List (List GreeksRow) :=
  batches.map (fun b =>
    get_options b.fetch b.symbol b.optType bound maxDte nowCut nowDte downloadedAt)

/-! ### Exception semantics of `calculate_greeks`

The whole body of `calculate_greeks` sits inside `try ... except`, and the
`except` arm (lines 153-155) logs and returns `data` — i.e. whatever state
the mutable frame had reached when the exception was raised.  To reason
about that arm we model the body as the sequence of its column-assignment
statements acting on a frame whose derived columns may or may not have been
written yet, and an optional failure point: `failAt = some k` means an
exception was raised by statement `k` (statements `0..k-1` have taken
effect) and the `except` arm returned the frame as it stood. -/

/-- A row of the frame while `calculate_greeks` is executing: the input
columns plus each derived column as `Option` (present or not yet written). -/
structure PartialRow where
  base : NormalizedRow
  time : Option ℤ := none
  t : Option ℝ := none
  d1 : Option ℝ := none
  d2 : Option ℝ := none
  delta : Option ℝ := none
  theta : Option ℝ := none
  gamma : Option ℝ := none
  vega : Option ℝ := none

/-- A fresh frame row: no derived column written yet. -/
def PartialRow.init (r : NormalizedRow) : PartialRow := { base := r }

/-- The statements of `calculate_greeks`'s body, in program order: the
volatility filter (line 94), then the columnar assignments `time`, `t`,
`d1`, `d2`, `delta`, `theta`, `gamma`, `vega`, then the drop of the scratch
columns `t`, `d1`, `d2` (line 149).  Each derived column is computed from
the columns the source statement reads (`none` propagates if a read column
is absent, which never happens in program order). -/
noncomputable def greekSteps (optType : String) :
    List (List PartialRow → List PartialRow) :=
  [fun s => s.filter (fun p => ivFloor < p.base.impliedVolatility),
   fun s => s.map (fun p => { p with time := some (p.base.downloaded_at % 86400) }),
   fun s => s.map (fun p => { p with t := some ((p.base.dte : ℝ) / 365) }),
   fun s => s.map (fun p => { p with d1 := p.t.map (fun tv =>
     (Real.log ((p.base.underlying_price : ℝ) / (p.base.strike : ℝ)) +
         (rate + (p.base.impliedVolatility : ℝ) ^ 2 / 2) * tv) /
       ((p.base.impliedVolatility : ℝ) * Real.sqrt tv)) }),
   fun s => s.map (fun p => { p with d2 := p.d1.bind (fun a => p.t.map (fun tv =>
     a - (p.base.impliedVolatility : ℝ) * Real.sqrt tv)) }),
   fun s => s.map (fun p => { p with delta :=
     (if optType = "c" then p.d1.map (fun a => round4 (normCdf a))
      else p.d1.map (fun a => round4 (normCdf a - 1))) }),
   fun s => s.map (fun p => { p with theta :=
     (if optType = "c" then
       p.d1.bind (fun a => p.d2.bind (fun b => p.t.map (fun tv =>
         round4 ((-((p.base.underlying_price : ℝ) * (p.base.impliedVolatility : ℝ) *
               normPdf a) / (2 * Real.sqrt tv) -
             rate * (p.base.strike : ℝ) * Real.exp (-rate * tv) * normCdf b) / 365))))
      else
       p.d1.bind (fun a => p.d2.bind (fun b => p.t.map (fun tv =>
         round4 ((-((p.base.underlying_price : ℝ) * (p.base.impliedVolatility : ℝ) *
               normPdf a) / (2 * Real.sqrt tv) +
             rate * (p.base.strike : ℝ) * Real.exp (-rate * tv) * normCdf (-b)) / 365))))) }),
   fun s => s.map (fun p => { p with gamma :=
     (p.d1.bind (fun a => p.t.map (fun tv =>
       round4 (normPdf a / ((p.base.underlying_price : ℝ) *
         (p.base.impliedVolatility : ℝ) * Real.sqrt tv))))) }),
   fun s => s.map (fun p => { p with vega :=
     (p.d1.bind (fun a => p.t.map (fun tv =>
       round4 ((p.base.underlying_price : ℝ) * Real.sqrt tv * normPdf a / 100)))) }),
   fun s => s.map (fun p => { p with t := none, d1 := none, d2 := none })]

/-- `calculate_greeks` with its `try/except`: with `failAt = none` the whole
body runs; with `failAt = some k` statement `k` raises and the `except` arm
returns the frame after statements `0..k-1` — partially written columns and
all. -/
noncomputable def calculate_greeksTry (data : List NormalizedRow)
    (optType : String) (failAt : Option ℕ) : List PartialRow :=
  let stmts := match failAt with
    | none => greekSteps optType
    | some k => (greekSteps optType).take k
  stmts.foldl (fun s f => f s) (data.map PartialRow.init)

/-- The shape every frame row has after the whole body of
`calculate_greeks` has executed: `time` and the four Greeks written, the
scratch columns dropped again. -/
noncomputable def fullPartialRow (optType : String) (r : NormalizedRow) : PartialRow :=
  { base := r
    time := some (r.downloaded_at % 86400)
    t := none
    d1 := none
    d2 := none
    delta := some (deltaOf optType r)
    theta := some (thetaOf optType r)
    gamma := some (gammaOf r)
    vega := some (vegaOf r) }

/-! ### Concrete data for witnesses and counterexamples -/

/-- A liquid quote: strike 100, implied volatility 0.5. -/
def sampleQuote : RawQuote :=
  { contractSymbol := "SPY240119C00100000"
    strike := 100
    lastPrice := 5
    bid := 9/2
    ask := 11/2
    impliedVolatility := 1/2 }

/-- A chain expiring on day 10 quoting `sampleQuote` on both sides. -/
def sampleChain : Chain := { expiry := 10, calls := [sampleQuote], puts := [sampleQuote] }

/-- A snapshot at spot 100 holding `sampleChain`. -/
def goodSnap : Snapshot := { spot := 100, chains := [sampleChain] }

/-- The normalized row `get_options` builds from `sampleQuote` when both
clock reads are midnight of day 0 and the download stamp is 01:00:00. -/
def goodRow : NormalizedRow := normRow "SPY" 3600 100 10 (dteOf 10 0) sampleQuote

/-- A snapshot whose only chain expires on day 0 — the same calendar day as
a capture instant inside day 0. -/
def sameDaySnap : Snapshot :=
  { spot := 100, chains := [{ expiry := 0, calls := [sampleQuote], puts := [] }] }

/-- A snapshot whose only quote (strike 300) lies outside the ±20% band
around spot 100, so every quote is filtered out. -/
def badBandSnap : Snapshot :=
  { spot := 100
    chains := [{ expiry := 10, calls := [{ sampleQuote with strike := 300 }],
                 puts := [{ sampleQuote with strike := 300 }] }] }

/-- A snapshot whose only quote has implied volatility 0, at or below the
Greeks engine's floor. -/
def lowIvSnap : Snapshot :=
  { spot := 100
    chains := [{ expiry := 10, calls := [{ sampleQuote with impliedVolatility := 0 }],
                 puts := [{ sampleQuote with impliedVolatility := 0 }] }] }

/-! ### Basic facts about banker's rounding and the normal distribution -/

theorem bankRoundR_ge_floor (x : ℝ) : ⌊x⌋ ≤ bankRoundR x := by
  unfold bankRoundR; split_ifs <;> omega

theorem bankRoundR_le_floor_add_one (x : ℝ) : bankRoundR x ≤ ⌊x⌋ + 1 := by
  unfold bankRoundR; split_ifs <;> omega

theorem bankRoundR_mono {x y : ℝ} (h : x ≤ y) : bankRoundR x ≤ bankRoundR y := by
  rcases lt_or_eq_of_le (Int.floor_mono h) with hlt | heq
  · have h1 := bankRoundR_le_floor_add_one x
    have h2 := bankRoundR_ge_floor y
    omega
  · have hfr : x - (⌊x⌋ : ℝ) ≤ y - (⌊x⌋ : ℝ) := by linarith
    unfold bankRoundR
    rw [← heq]
    split_ifs <;> first | omega | linarith

theorem bankRoundR_intCast (n : ℤ) : bankRoundR (n : ℝ) = n := by
  unfold bankRoundR
  rw [Int.floor_intCast]
  have h : (n : ℝ) - (n : ℤ) = 0 := by ring
  rw [h]
  norm_num

theorem bankRoundR_add_int_of_even (x : ℝ) {n : ℤ} (hn : Even n) :
    bankRoundR (x + n) = bankRoundR x + n := by
  unfold bankRoundR
  rw [Int.floor_add_int]
  have h1 : x + (n : ℝ) - ((⌊x⌋ + n : ℤ) : ℝ) = x - ⌊x⌋ := by push_cast; ring
  have h2 : Even (⌊x⌋ + n) ↔ Even ⌊x⌋ := by simp [Int.even_add, hn]
  rw [h1]
  simp only [h2]
  split_ifs <;> omega

theorem round4_nonneg {x : ℝ} (hx : 0 ≤ x) : 0 ≤ round4 x := by
  unfold round4
  have h0 : bankRoundR ((0 : ℤ) : ℝ) ≤ bankRoundR (x * 10000) :=
    bankRoundR_mono (by push_cast; linarith)
  rw [bankRoundR_intCast] at h0
  have : (0 : ℝ) ≤ (bankRoundR (x * 10000) : ℝ) := by exact_mod_cast h0
  linarith

theorem round4_le_one {x : ℝ} (hx : x ≤ 1) : round4 x ≤ 1 := by
  unfold round4
  have h0 : bankRoundR (x * 10000) ≤ bankRoundR ((10000 : ℤ) : ℝ) :=
    bankRoundR_mono (by push_cast; linarith)
  rw [bankRoundR_intCast] at h0
  have : (bankRoundR (x * 10000) : ℝ) ≤ 10000 := by exact_mod_cast h0
  linarith

theorem round4_nonpos {x : ℝ} (hx : x ≤ 0) : round4 x ≤ 0 := by
  unfold round4
  have h0 : bankRoundR (x * 10000) ≤ bankRoundR ((0 : ℤ) : ℝ) :=
    bankRoundR_mono (by push_cast; linarith)
  rw [bankRoundR_intCast] at h0
  have : (bankRoundR (x * 10000) : ℝ) ≤ 0 := by exact_mod_cast h0
  linarith

theorem round4_neg_one_le {x : ℝ} (hx : -1 ≤ x) : -1 ≤ round4 x := by
  unfold round4
  have h0 : bankRoundR ((-10000 : ℤ) : ℝ) ≤ bankRoundR (x * 10000) :=
    bankRoundR_mono (by push_cast; linarith)
  rw [bankRoundR_intCast] at h0
  have : (-10000 : ℝ) ≤ (bankRoundR (x * 10000) : ℝ) := by exact_mod_cast h0
  linarith

theorem round4_sub_one (x : ℝ) : round4 (x - 1) = round4 x - 1 := by
  unfold round4
  have h : (x - 1) * 10000 = x * 10000 + ((-10000 : ℤ) : ℝ) := by push_cast; ring
  rw [h, bankRoundR_add_int_of_even _ ⟨-5000, by norm_num⟩]
  push_cast
  ring

theorem bankRound_nonneg {q : ℚ} (h : 0 ≤ q) : 0 ≤ bankRound q := by
  unfold bankRound
  have h0 : 0 ≤ ⌊q⌋ := Int.floor_nonneg.mpr h
  split_ifs <;> omega

theorem roundTo2_nonneg {q : ℚ} (h : 0 ≤ q) : 0 ≤ roundTo2 q := by
  unfold roundTo2
  have h1 : 0 ≤ bankRound (q * 100) := bankRound_nonneg (by positivity)
  have h2 : (0 : ℚ) ≤ (bankRound (q * 100) : ℚ) := by exact_mod_cast h1
  linarith

theorem normPdf_nonneg (x : ℝ) : 0 ≤ normPdf x := by
  unfold normPdf
  positivity

theorem normCdf_nonneg (x : ℝ) : 0 ≤ normCdf x :=
  ProbabilityTheory.cdf_nonneg _ x

theorem normCdf_le_one (x : ℝ) : normCdf x ≤ 1 :=
  ProbabilityTheory.cdf_le_one _ x

/-- `calculate_greeks` is exactly: filter by the volatility floor, then map
the per-row Greeks computation (the `if data.empty` early return does not
change the value). -/
theorem calculate_greeks_eq_map (data : List NormalizedRow) (optType : String) :
    calculate_greeks data optType =
      (data.filter (fun r => ivFloor < r.impliedVolatility)).map (greeksOf optType) := by
  simp only [calculate_greeks]
  split <;> simp_all

/-- Running the whole body of `calculate_greeks` (no exception) turns each
surviving row into its fully populated frame row. -/
theorem calculate_greeksTry_none_eq (data : List NormalizedRow) (optType : String) :
    calculate_greeksTry data optType none =
      (data.filter (fun r => ivFloor < r.impliedVolatility)).map (fullPartialRow optType) := by
  simp only [calculate_greeksTry, greekSteps, List.foldl_cons, List.foldl_nil]
  rw [List.filter_map]
  simp only [List.map_map]
  refine List.map_congr_left (fun r hr => ?_)
  by_cases hc : optType = "c" <;>
    simp [Function.comp, PartialRow.init, fullPartialRow, deltaOf, thetaOf, gammaOf,
      vegaOf, d1Of, d2Of, tOf, hc]

/-- `dte` of an expiry on day 10 seen from a midnight clock read of day 0. -/
theorem dteOf_ten_zero : dteOf 10 0 = 11 := by decide

/-- Evaluating the normalizer on `goodSnap` with both clocks at midnight of
day 0: exactly the row `goodRow` survives. -/
theorem normalizedRows_goodSnap :
    normalizedRows goodSnap "SPY" "c" (1/5) 120 0 0 3600 = [goodRow] := by
  norm_num [normalizedRows, assembledRows, goodSnap, sampleChain, sampleQuote,
    keptByCutoff, pickChain, inBand, bankRound, normRow, goodRow, dteOf_ten_zero]

/-- Evaluating the whole pipeline on `goodSnap`: one Greeks row comes out. -/
theorem get_optionsCore_goodSnap :
    get_optionsCore goodSnap "SPY" "c" (1/5) 120 0 0 3600 = [greeksOf "c" goodRow] := by
  simp only [get_optionsCore, normalizedRows_goodSnap]
  rw [if_neg (by simp), calculate_greeks_eq_map]
  norm_num [goodRow, normRow, sampleQuote, ivFloor]

/-! ### The claims -/

/-- C1, counterexample: `dte` is NOT the calendar-day difference plus one.
The `now` of line 67 is a full wall-clock instant: with the clock at
10:00:00 of day 0 (36000 s) and an expiry on that same day 0, the source
computes `dte = 0` (not 1) and drops the row, so a same-day expiry does not
yield `dte = 1` and the whole pipeline output is empty. -/
theorem c1_same_day_dte_counterexample :
    dteOf 0 36000 = 0 ∧
      get_optionsCore sameDaySnap "SPY" "c" (1/5) 120 36000 36000 3600 = [] := by
  have hd : dteOf 0 36000 = 0 := by decide
  have h : normalizedRows sameDaySnap "SPY" "c" (1/5) 120 36000 36000 3600 = [] := by
    norm_num [normalizedRows, assembledRows, sameDaySnap, sampleQuote, keptByCutoff,
      pickChain, inBand, bankRound, normRow, hd]
  refine ⟨hd, ?_⟩
  simp only [get_optionsCore]
  rw [h]
  simp

/-- C1, amended: `dte` is the floor of (expiry midnight − dte-clock
instant) in whole days, plus 1.  When the clock instant is `capDay` days
plus `s` seconds, this is the calendar-day difference plus 1 if `s = 0`
(so a same-day expiry yields `dte = 1` only for a midnight clock read) and
the calendar-day difference itself otherwise (a same-day expiry yields
`dte = 0`).  Rows with non-positive `dte` are always dropped. -/
theorem c1_dte_computation_amended :
    (∀ expDay capDay s : ℤ, 0 ≤ s → s < 86400 →
      dteOf expDay (capDay * 86400 + s) =
        expDay - capDay + (if s = 0 then 1 else 0))
  ∧ (∀ snap symbol optType bound maxDte nowCut nowDte dl r,
      r ∈ normalizedRows snap symbol optType bound maxDte nowCut nowDte dl →
        0 < r.dte) := by
  constructor
  · intro expDay capDay s hs0 hs1
    unfold dteOf
    rw [Int.fdiv_eq_ediv _ (by norm_num)]
    split_ifs with h <;> omega
  · intro snap symbol optType bound maxDte nowCut nowDte dl r hr
    unfold normalizedRows at hr
    simpa using (List.mem_filter.mp hr).2

/-- Witness for C1's amended theorem: a 01:00:00 clock read two days after
the epoch with expiry on day 5 gives `dte = 3`, and the concrete pipeline
row `goodRow` survives with positive `dte`. -/
theorem c1_dte_computation_amended_witness :
    dteOf 5 (2 * 86400 + 3600) = 5 - 2 + (if (3600 : ℤ) = 0 then 1 else 0) ∧
      0 < goodRow.dte :=
  ⟨c1_dte_computation_amended.1 5 2 3600 (by norm_num) (by norm_num),
   c1_dte_computation_amended.2 goodSnap "SPY" "c" (1/5) 120 0 0 3600 goodRow
     (by rw [normalizedRows_goodSnap]; exact List.mem_singleton.mpr rfl)⟩

/-- C2, counterexample: the `except` arm of `calculate_greeks` returns the
frame as it stands, it does not drop rows.  If an exception is raised by
statement 7 (the gamma assignment) after delta and theta were written, the
returned batch contains one row with delta and theta populated and gamma
and vega missing — a partially computed row is emitted. -/
theorem c2_partial_row_counterexample :
    (calculate_greeksTry [goodRow] "c" (some 7)).map
        (fun p => (p.delta.isSome, p.theta.isSome, p.gamma.isSome, p.vega.isSome)) =
      [(true, true, false, false)] := by
  simp only [calculate_greeksTry, greekSteps]
  norm_num [PartialRow.init, goodRow, normRow, sampleQuote, ivFloor]

/-- C2, amended: on the error-free path every row `calculate_greeks` emits
has all four Greeks populated; only when an exception interrupts the body
can the `except` arm hand back rows with some Greeks present and some
missing. -/
theorem c2_all_greeks_on_success :
    ∀ (data : List NormalizedRow) (optType : String),
      ((calculate_greeksTry data optType none).all (fun p =>
        p.delta.isSome && p.theta.isSome && p.gamma.isSome && p.vega.isSome)) = true := by
  intro data optType
  rw [calculate_greeksTry_none_eq, List.all_eq_true]
  intro p hp
  obtain ⟨r, _, rfl⟩ := List.mem_map.mp hp
  rfl

/-- C3: the Greeks engine is "filter by the volatility floor, then map the
formulas" — it drops every row at or below `1e-5` before computing — and
every row of the pipeline output has implied volatility strictly above
`1e-5` and strictly positive `dte`. -/
theorem c3_domain_guard :
    (∀ (data : List NormalizedRow) (optType : String),
      calculate_greeks data optType =
        (data.filter (fun r => ivFloor < r.impliedVolatility)).map
          (greeksOf optType))
  ∧ (∀ snap symbol optType bound maxDte nowCut nowDte dl g,
      g ∈ get_optionsCore snap symbol optType bound maxDte nowCut nowDte dl →
        ivFloor < g.row.impliedVolatility ∧ 0 < g.row.dte) := by
  constructor
  · exact calculate_greeks_eq_map
  · intro snap symbol optType bound maxDte nowCut nowDte dl g hg
    simp only [get_optionsCore] at hg
    by_cases h : normalizedRows snap symbol optType bound maxDte nowCut nowDte dl = []
    · rw [h] at hg
      simp at hg
    · rw [if_neg h, calculate_greeks_eq_map] at hg
      obtain ⟨r, hr, rfl⟩ := List.mem_map.mp hg
      have h1 := List.mem_filter.mp hr
      have h2 : r ∈ normalizedRows snap symbol optType bound maxDte nowCut nowDte dl :=
        h1.1
      unfold normalizedRows at h2
      exact ⟨of_decide_eq_true h1.2, of_decide_eq_true (List.mem_filter.mp h2).2⟩

/-- Witness for C3: the concrete pipeline run on `goodSnap` emits the Greeks
row of `goodRow`, whose volatility (0.5) and `dte` (11) satisfy the guard. -/
theorem c3_domain_guard_witness :
    ivFloor < (greeksOf "c" goodRow).row.impliedVolatility ∧
      0 < (greeksOf "c" goodRow).row.dte :=
  c3_domain_guard.2 goodSnap "SPY" "c" (1/5) 120 0 0 3600 (greeksOf "c" goodRow)
    (by rw [get_optionsCore_goodSnap]; exact List.mem_singleton.mpr rfl)

/-- C4: for every admitted row, the call delta is `Φ(d1)` and the put delta
`Φ(d1) − 1` (4-decimal rounded) with `d1` and `t = dte/365` exactly as the
spec writes them, and consequently call deltas lie in `[0, 1]` and put
deltas in `[-1, 0]`. -/
theorem c4_delta_formula_and_bounds :
    ∀ r : NormalizedRow, (1/100000 : ℚ) < r.impliedVolatility → 0 < r.dte →
      0 < r.strike → 0 < r.underlying_price →
      (deltaOf "c" r =
          round4 (normCdf ((Real.log ((r.underlying_price : ℝ) / (r.strike : ℝ)) +
              (rate + (r.impliedVolatility : ℝ) ^ 2 / 2) * ((r.dte : ℝ) / 365)) /
            ((r.impliedVolatility : ℝ) * Real.sqrt ((r.dte : ℝ) / 365)))) ∧
        deltaOf "p" r =
          round4 (normCdf ((Real.log ((r.underlying_price : ℝ) / (r.strike : ℝ)) +
              (rate + (r.impliedVolatility : ℝ) ^ 2 / 2) * ((r.dte : ℝ) / 365)) /
            ((r.impliedVolatility : ℝ) * Real.sqrt ((r.dte : ℝ) / 365))) - 1) ∧
        0 ≤ deltaOf "c" r ∧ deltaOf "c" r ≤ 1 ∧
        -1 ≤ deltaOf "p" r ∧ deltaOf "p" r ≤ 0) := by
  intro r h1 h2 h3 h4
  have hc : deltaOf "c" r = round4 (normCdf (d1Of r)) := by simp [deltaOf]
  have hp : deltaOf "p" r = round4 (normCdf (d1Of r) - 1) := by simp [deltaOf]
  refine ⟨by rw [hc]; simp only [d1Of, tOf], by rw [hp]; simp only [d1Of, tOf],
    ?_, ?_, ?_, ?_⟩
  · rw [hc]; exact round4_nonneg (normCdf_nonneg _)
  · rw [hc]; exact round4_le_one (normCdf_le_one _)
  · rw [hp]; exact round4_neg_one_le (by linarith [normCdf_nonneg (d1Of r)])
  · rw [hp]; exact round4_nonpos (by linarith [normCdf_le_one (d1Of r)])

/-- Witness for C4 at the concrete row `goodRow`. -/
theorem c4_delta_formula_and_bounds_witness :
    0 ≤ deltaOf "c" goodRow ∧ deltaOf "c" goodRow ≤ 1 ∧
      -1 ≤ deltaOf "p" goodRow ∧ deltaOf "p" goodRow ≤ 0 :=
  have h := c4_delta_formula_and_bounds goodRow
    (by norm_num [goodRow, normRow, sampleQuote, ivFloor])
    (by rw [show goodRow.dte = dteOf 10 0 from rfl, dteOf_ten_zero]; norm_num)
    (by norm_num [goodRow, normRow, sampleQuote])
    (by norm_num [goodRow, normRow, roundTo2, bankRound])
  ⟨h.2.2.1, h.2.2.2.1, h.2.2.2.2.1, h.2.2.2.2.2⟩

/-- C5: a quote survives the strike filter exactly when its strike lies in
the inclusive band `[round(spot·(1−bound)), round(spot·(1+bound))]`, and at
spot 100, bound 0.20 the band is `[80, 120]`: strike 79 is excluded, 80
included, 121 excluded. -/
theorem c5_strike_band :
    (∀ (spot bound : ℚ) (optType : String) (c : Chain) (q : RawQuote),
      q ∈ (pickChain optType c).filter (fun q => inBand spot bound q.strike) ↔
        q ∈ pickChain optType c ∧
          (bankRound (spot * (1 - bound)) : ℚ) ≤ q.strike ∧
          q.strike ≤ (bankRound (spot * (1 + bound)) : ℚ))
  ∧ bankRound ((100 : ℚ) * (1 - 1/5)) = 80
  ∧ bankRound ((100 : ℚ) * (1 + 1/5)) = 120
  ∧ inBand 100 (1/5) 79 = false
  ∧ inBand 100 (1/5) 80 = true
  ∧ inBand 100 (1/5) 121 = false := by
  refine ⟨?_, by norm_num [bankRound], by norm_num [bankRound],
    by norm_num [inBand, bankRound], by norm_num [inBand, bankRound],
    by norm_num [inBand, bankRound]⟩
  intro spot bound optType c q
  simp [List.mem_filter, inBand, and_assoc]

/-- C6: gamma and vega are computed by one shared formula — they do not
depend on the option kind at all, so call and put runs agree exactly; the
rounded call and put deltas of identical inputs differ by exactly 1 (well
within the claimed 1e-4 tolerance); and every row of the pipeline output
has non-negative gamma and vega whenever the snapshot's spot price is
non-negative. -/
theorem c6_put_call_symmetry_and_signs :
    (∀ (optA optB : String) (r : NormalizedRow),
      (greeksOf optA r).gamma = (greeksOf optB r).gamma ∧
        (greeksOf optA r).vega = (greeksOf optB r).vega)
  ∧ (∀ r : NormalizedRow,
      |(greeksOf "c" r).delta - (greeksOf "p" r).delta - 1| ≤ 1/10000)
  ∧ (∀ snap symbol optType bound maxDte nowCut nowDte dl,
      0 ≤ snap.spot →
      ∀ g ∈ get_optionsCore snap symbol optType bound maxDte nowCut nowDte dl,
        0 ≤ g.gamma ∧ 0 ≤ g.vega) := by
  refine ⟨fun optA optB r => ⟨rfl, rfl⟩, ?_, ?_⟩
  · intro r
    have h1 : (greeksOf "c" r).delta = round4 (normCdf (d1Of r)) := by
      simp [greeksOf, deltaOf]
    have h2 : (greeksOf "p" r).delta = round4 (normCdf (d1Of r) - 1) := by
      simp [greeksOf, deltaOf]
    rw [h1, h2, round4_sub_one]
    have h3 : round4 (normCdf (d1Of r)) - (round4 (normCdf (d1Of r)) - 1) - 1 = 0 := by
      ring
    rw [h3, abs_zero]
    norm_num
  · intro snap symbol optType bound maxDte nowCut nowDte dl hspot g hg
    simp only [get_optionsCore] at hg
    by_cases h : normalizedRows snap symbol optType bound maxDte nowCut nowDte dl = []
    · rw [h] at hg
      simp at hg
    · rw [if_neg h, calculate_greeks_eq_map] at hg
      obtain ⟨r, hr, rfl⟩ := List.mem_map.mp hg
      have hiv : ivFloor < r.impliedVolatility :=
        of_decide_eq_true (List.mem_filter.mp hr).2
      have hmem : r ∈ normalizedRows snap symbol optType bound maxDte nowCut nowDte dl :=
        (List.mem_filter.mp hr).1
      have hup : r.underlying_price = roundTo2 snap.spot := by
        unfold normalizedRows assembledRows at hmem
        obtain ⟨c, hc, hrc⟩ := List.mem_flatMap.mp (List.mem_filter.mp hmem).1
        obtain ⟨q, hq, rfl⟩ := List.mem_map.mp hrc
        rfl
      have hS : (0 : ℝ) ≤ (r.underlying_price : ℝ) := by
        rw [hup]
        exact_mod_cast roundTo2_nonneg hspot
      have hσ : (0 : ℝ) ≤ (r.impliedVolatility : ℝ) := by
        have h0 : (0 : ℚ) ≤ r.impliedVolatility :=
          le_of_lt (lt_of_le_of_lt (by norm_num [ivFloor]) hiv)
        exact_mod_cast h0
      constructor
      · exact round4_nonneg (div_nonneg (normPdf_nonneg _)
          (mul_nonneg (mul_nonneg hS hσ) (Real.sqrt_nonneg _)))
      · exact round4_nonneg (div_nonneg (mul_nonneg (mul_nonneg hS (Real.sqrt_nonneg _))
          (normPdf_nonneg _)) (by norm_num))

/-- Witness for C6's sign part at the concrete pipeline output. -/
theorem c6_put_call_symmetry_and_signs_witness :
    0 ≤ (greeksOf "c" goodRow).gamma ∧ 0 ≤ (greeksOf "c" goodRow).vega :=
  c6_put_call_symmetry_and_signs.2.2 goodSnap "SPY" "c" (1/5) 120 0 0 3600
    (by norm_num [goodSnap]) (greeksOf "c" goodRow)
    (by rw [get_optionsCore_goodSnap]; exact List.mem_singleton.mpr rfl)

/-- C7: with the `utcnow` clock read at `capDay` days plus `s` seconds, a
chain survives the cutoff filter exactly when its expiry day is at most
`capDay + maxDte` — an expiry strictly after the cutoff is excluded, one
equal to it is kept. -/
theorem c7_expiry_cutoff :
    ∀ maxDte capDay s : ℤ, 0 ≤ s → s < 86400 →
      ∀ (chains : List Chain) (c : Chain),
        (c ∈ chains.filter (fun c => keptByCutoff maxDte (capDay * 86400 + s) c.expiry) ↔
          c ∈ chains ∧ c.expiry ≤ capDay + maxDte) := by
  intro maxDte capDay s hs0 hs1 chains c
  rw [List.mem_filter]
  refine and_congr_right (fun _ => ?_)
  simp only [keptByCutoff, Bool.not_eq_true', decide_eq_false_iff_not, gt_iff_lt, not_lt]
  omega

/-- Witness for C7: a chain expiring on day 10 is kept by a cutoff of 120
days read at 01:00:00 of day 0. -/
theorem c7_expiry_cutoff_witness :
    sampleChain ∈ [sampleChain].filter
      (fun c => keptByCutoff 120 (0 * 86400 + 3600) c.expiry) :=
  (c7_expiry_cutoff 120 0 3600 (by norm_num) (by norm_num) [sampleChain]
    sampleChain).mpr ⟨List.mem_singleton.mpr rfl, by norm_num [sampleChain]⟩

/-- C8: a retrieval failure returns the empty table; a snapshot with no
chains, a run in which every row is filtered away, and a run in which the
volatility floor removes every row all return the empty table; and the
collection loop of `main` processes every batch independently, so one
batch's outcome never aborts its siblings. -/
theorem c8_degrade_to_empty :
    (∀ (e symbol optType : String) (bound : ℚ) (maxDte nowCut nowDte dl : ℤ),
      get_options (.error e) symbol optType bound maxDte nowCut nowDte dl = [])
  ∧ (∀ (spot : ℚ) (symbol optType : String) (bound : ℚ) (maxDte nowCut nowDte dl : ℤ),
      get_optionsCore { spot := spot, chains := [] } symbol optType bound maxDte
        nowCut nowDte dl = [])
  ∧ (∀ snap symbol optType bound maxDte nowCut nowDte dl,
      normalizedRows snap symbol optType bound maxDte nowCut nowDte dl = [] →
      get_optionsCore snap symbol optType bound maxDte nowCut nowDte dl = [])
  ∧ (∀ snap symbol optType bound maxDte nowCut nowDte dl,
      (∀ r ∈ normalizedRows snap symbol optType bound maxDte nowCut nowDte dl,
        r.impliedVolatility ≤ ivFloor) →
      get_optionsCore snap symbol optType bound maxDte nowCut nowDte dl = [])
  ∧ (∀ (pre post : List Batch) (b : Batch) (bound : ℚ) (maxDte nowCut nowDte dl : ℤ),
      runAll (pre ++ b :: post) bound maxDte nowCut nowDte dl =
        runAll pre bound maxDte nowCut nowDte dl ++
          get_options b.fetch b.symbol b.optType bound maxDte nowCut nowDte dl ::
            runAll post bound maxDte nowCut nowDte dl) := by
  refine ⟨fun _ _ _ _ _ _ _ _ => rfl, ?_, ?_, ?_, ?_⟩
  · intro spot symbol optType bound maxDte nowCut nowDte dl
    simp only [get_optionsCore]
    have h : normalizedRows { spot := spot, chains := [] } symbol optType bound
        maxDte nowCut nowDte dl = [] := rfl
    rw [h]
    simp
  · intro snap symbol optType bound maxDte nowCut nowDte dl h
    simp only [get_optionsCore]
    rw [h]
    simp
  · intro snap symbol optType bound maxDte nowCut nowDte dl h
    simp only [get_optionsCore]
    by_cases hout : normalizedRows snap symbol optType bound maxDte nowCut nowDte dl = []
    · rw [hout]
      simp
    · rw [if_neg hout, calculate_greeks_eq_map]
      have hf : (normalizedRows snap symbol optType bound maxDte nowCut
          nowDte dl).filter (fun r => ivFloor < r.impliedVolatility) = [] := by
        rw [List.filter_eq_nil_iff]
        intro a ha
        simp only [decide_eq_true_eq]
        exact not_lt.mpr (h a ha)
      rw [hf]
      rfl
  · intro pre post b bound maxDte nowCut nowDte dl
    simp [runAll]

/-- Witness for C8: the out-of-band snapshot and the zero-volatility
snapshot both produce the empty table. -/
theorem c8_degrade_to_empty_witness :
    get_optionsCore badBandSnap "SPY" "c" (1/5) 120 0 0 3600 = [] ∧
      get_optionsCore lowIvSnap "SPY" "c" (1/5) 120 0 0 3600 = [] :=
  ⟨c8_degrade_to_empty.2.2.1 badBandSnap "SPY" "c" (1/5) 120 0 0 3600
    (by norm_num [normalizedRows, assembledRows, badBandSnap, sampleQuote,
      keptByCutoff, pickChain, inBand, bankRound, normRow, dteOf_ten_zero]),
   c8_degrade_to_empty.2.2.2.1 lowIvSnap "SPY" "c" (1/5) 120 0 0 3600
    (by
      intro r hr
      have h : normalizedRows lowIvSnap "SPY" "c" (1/5) 120 0 0 3600 =
          [normRow "SPY" 3600 100 10 (dteOf 10 0)
            { sampleQuote with impliedVolatility := 0 }] := by
        norm_num [normalizedRows, assembledRows, lowIvSnap, sampleQuote,
          keptByCutoff, pickChain, inBand, bankRound, normRow, dteOf_ten_zero]
      rw [h, List.mem_singleton] at hr
      subst hr
      norm_num [normRow, sampleQuote, ivFloor])⟩

/-- C9: every output row of the Greeks engine is the per-row Greeks
computation of exactly one input row — the carried `row` (all input
columns) is that input row unchanged, `time` is extracted from its own
timestamp, and each Greek is a pure function of that row's own fields.
The output schema (`GreeksRow`) has no `t`, `d1` or `d2` field: the
scratch columns are dropped at line 149. -/
theorem c9_frame_condition :
    ∀ (data : List NormalizedRow) (optType : String) (g : GreeksRow),
      g ∈ calculate_greeks data optType →
        ∃ r, r ∈ data ∧ g.row = r ∧ g.time = r.downloaded_at % 86400 ∧
          g.delta = deltaOf optType r ∧ g.theta = thetaOf optType r ∧
          g.gamma = gammaOf r ∧ g.vega = vegaOf r := by
  intro data optType g hg
  rw [calculate_greeks_eq_map] at hg
  obtain ⟨r, hr, rfl⟩ := List.mem_map.mp hg
  exact ⟨r, (List.mem_filter.mp hr).1, rfl, rfl, rfl, rfl, rfl, rfl⟩

/-- Witness for C9 at the concrete engine run on `[goodRow]`. -/
theorem c9_frame_condition_witness :
    ∃ r, r ∈ [goodRow] ∧ (greeksOf "c" goodRow).row = r ∧
      (greeksOf "c" goodRow).time = r.downloaded_at % 86400 ∧
      (greeksOf "c" goodRow).delta = deltaOf "c" r ∧
      (greeksOf "c" goodRow).theta = thetaOf "c" r ∧
      (greeksOf "c" goodRow).gamma = gammaOf r ∧
      (greeksOf "c" goodRow).vega = vegaOf r :=
  c9_frame_condition [goodRow] "c" (greeksOf "c" goodRow)
    (by
      rw [calculate_greeks_eq_map]
      have h : [goodRow].filter (fun r => ivFloor < r.impliedVolatility) = [goodRow] := by
        norm_num [goodRow, normRow, sampleQuote, ivFloor]
      rw [h]
      exact List.mem_map_of_mem _ (List.mem_singleton.mpr rfl))

/-- C10: any option-kind string other than exactly `"c"` selects the put
chain and the put formulas — `greeksOf` with such a kind agrees wholesale
with the `"p"` run — while `"c"` selects the call chain; no validation
rejects unexpected values. -/
theorem c10_non_c_kind_is_put :
    ∀ optType : String, optType ≠ "c" →
      (∀ c : Chain, pickChain optType c = c.puts) ∧
      (∀ r : NormalizedRow, greeksOf optType r = greeksOf "p" r) ∧
      (∀ c : Chain, pickChain "c" c = c.calls) := by
  intro optType h
  refine ⟨fun c => by simp [pickChain, h],
    fun r => by simp [greeksOf, deltaOf, thetaOf, h],
    fun c => by simp [pickChain]⟩

/-- Witness for C10 at the unexpected kind string `"x"`. -/
theorem c10_non_c_kind_is_put_witness :
    pickChain "x" sampleChain = sampleChain.puts ∧
      greeksOf "x" goodRow = greeksOf "p" goodRow :=
  ⟨(c10_non_c_kind_is_put "x" (by decide)).1 sampleChain,
   (c10_non_c_kind_is_put "x" (by decide)).2.1 goodRow⟩

end OptionsData
